import Mathlib

/-!
Verification of the WCCCD chatbot (src/chatbot_interface.py).

The file embeds the program's data model and operations as executable Lean
definitions and proves the specified properties about them.  External
collaborators (the Chroma vector store, the Anthropic API, the Streamlit
session) are modelled as explicit inputs: the store is a function from a
query-text list and a result count to a raw query result, the LLM is a
function from a request to a response, and the session transcript is the
list of messages threaded through each operation.
-/

namespace WcccdChatbot

/-- A metadata record of the backing store: the fields the code reads
(`metadata['url']`, `metadata['title']`). -/
structure Metadata where
  url : String
  title : String
deriving DecidableEq

/-- A retrieved passage as built by `search_knowledge_base`:
`{'content': doc, 'url': metadata['url'], 'title': metadata['title']}`. -/
structure Chunk where
  content : String
  url : String
  title : String
deriving DecidableEq

/-- The raw result of `collection.query`: per-query lists of documents and
metadata records.  `none` models an absent (`None`) field of the result
dict; the outer list has one entry per query text. -/
structure QueryResult where
  documents : Option (List (List String))
  metadatas : Option (List (List Metadata))

/-- The Chroma collection, modelled by its one observable operation:
`collection.query(query_texts=[query], n_results=top_k)`. -/
structure Collection where
  query : List String → Nat → QueryResult

/-- One conversation turn (`{"role": ..., "content": ...}` in
`st.session_state.messages`), also the shape of an API request message. -/
structure Message where
  role : String
  content : String
deriving DecidableEq

/-- One block of a model response (`message.content[i]`). -/
structure ContentBlock where
  text : String
deriving DecidableEq

/-- A model response: `message.content` is a list of content blocks. -/
structure MessageResponse where
  content : List ContentBlock
deriving DecidableEq

/-- The Anthropic client: the api key it was constructed with and the
external behaviour of `messages.create (model, max_tokens, messages)`. -/
structure Anthropic where
  api_key : String
  create : String → Nat → List Message → MessageResponse

/-- Configuration constant `TOP_K_RESULTS = 20`. -/
def TOP_K_RESULTS : Nat := 20

/-- Python's string repetition `s * n` (source: `"="*50`, `"-"*50`). -/
def pyRepeat (s : String) (n : Nat) : String :=
  String.join (List.replicate n s)

/-- Python's `sep.join(parts)`. -/
def joinSep (sep : String) : List String → String
  | [] => ""
  | [s] => s
  | s :: rest => s ++ sep ++ joinSep sep rest

/-- The loop body of `search_knowledge_base`:
`for i, doc in enumerate(results['documents'][0]): metadata =
results['metadatas'][0][i]; relevant_chunks.append({...})`.
`none` models the `IndexError` raised when a metadata record is missing at
an index at which a document exists. -/
def buildChunks (metas0 : List Metadata) : List (Nat × String) → Option (List Chunk)
  | [] => some []
  | (i, doc) :: rest =>
    match metas0.get? i with
    | none => none
    | some metadata =>
      match buildChunks metas0 rest with
      | none => none
      | some chunks =>
        some ({ content := doc, url := metadata.url, title := metadata.title } :: chunks)

/-- Source `search_knowledge_base(collection, query, top_k)`: queries the
store with `query_texts=[query]` and `n_results=top_k`; when
`results['documents']` is falsy (absent or the empty list) or
`results['documents'][0]` is empty it returns `[]`; otherwise it builds one
chunk per document, indexing `results['metadatas'][0]` at the document's
position.  `none` models an uncaught Python exception. -/
def search_knowledge_base (collection : Collection) (query : String) (top_k : Nat) :
    Option (List Chunk) :=
  match (collection.query [query] top_k).documents with
  | none => some []
  | some [] => some []
  | some (docs0 :: _) =>
    if docs0 = [] then some []
    else
      match (collection.query [query] top_k).metadatas with
      | none => none
      | some [] => none
      | some (metas0 :: _) => buildChunks metas0 docs0.enum

/-- The context entry built for each chunk:
`f"Source: {chunk['title']} ({chunk['url']})\n{chunk['content']}"`. -/
def contextEntry (chunk : Chunk) : String :=
  "Source: " ++ chunk.title ++ " (" ++ chunk.url ++ ")\n" ++ chunk.content

/-- The context block: `"\n\n".join(...)` over the per-chunk entries, in
supply order. -/
def promptContext (relevant_chunks : List Chunk) : String :=
  joinSep "\n\n" (relevant_chunks.map contextEntry)

/-- The prompt template's text before the interpolated date. -/
def promptPart1 : String :=
  "You are a helpful academic assistant for Wayne County Community College District.\n\nTODAY'S DATE: "

/-- The prompt template's text between the date and the context block. -/
def promptPart2 : String :=
  "\nIMPORTANT: Only mention events happening TODAY or LATER. Skip any past events.\n\nContext from WCCCD catalog and website:\n"

/-- The prompt template's text between the context block and the question. -/
def promptPart3 : String :=
  "\n\nStudent's question: "

/-- The prompt template's text after the interpolated question: the fixed
response rules, examples and closing instruction. -/
def promptPart4 : String :=
  "\n\nRESPONSE RULES:\n\nFor PROGRAM/ADVISING questions:\n1. Provide specific course lists, sequences, and credit requirements from the catalog\n2. Explain prerequisites clearly with course codes\n3. Suggest realistic semester-by-semester plans when relevant\n4. Compare programs when students are deciding between options\n5. Keep responses 3-5 sentences with clear, actionable information\n6. ALWAYS end with: \"For personalized academic advising and official program planning, schedule an appointment with an academic advisor at (313) 496-2634.\"\n\nFor GENERAL/FACTUAL questions:\n1. Keep answer to 1-3 sentences maximum\n2. Answer directly and concisely\n3. ALWAYS include the relevant website link\n4. Format: \"Brief answer. Visit [URL] for more information.\"\n\nFor ALL responses:\n- Use PLAIN TEXT ONLY - no bold, no italics, no special formatting\n- Include actual URLs from the context sources\n- Be helpful and encouraging\n- If information is from the catalog, mention it (\"According to the 2025-2026 catalog...\")\n\nEXAMPLES:\n\nProgram Question: \"What courses do I need for Business Administration?\"\nAnswer: \"The Business Administration A.A.S. requires 62 credits including: ACC 201/202 (Accounting), BUS 221 (Business Law), BUS 251 (Management), MKT 201 (Marketing), and ECO 201/202 (Economics). First semester typically includes ENG 101, MTH 110, BUS 101, and CIS 105. For personalized academic advising and official program planning, schedule an appointment with an academic advisor at (313) 496-2634.\"\n\nGeneral Question: \"When can I register for classes?\"\nAnswer: \"Registration for Spring 2026 begins October 21, 2025. Visit https://www.wcccd.edu/registration for dates and complete information.\"\n\nNow answer the student's question:"

/-- The full prompt composed by `generate_response`, with the current-date
string (`datetime.now().strftime('%B %d, %Y')`) passed in explicitly. -/
def buildPrompt (dateStr query : String) (relevant_chunks : List Chunk) : String :=
  promptPart1 ++ dateStr ++ promptPart2 ++ promptContext relevant_chunks ++
    promptPart3 ++ query ++ promptPart4

/-- Source `generate_response(anthropic_client, query, relevant_chunks)`:
composes the prompt, calls `messages.create` with the fixed model id, a
500-token budget and one user message, and returns `message.content[0].text`
(`none` models the `IndexError` on an empty content list). -/
def generate_response (anthropic_client : Anthropic) (dateStr query : String)
    (relevant_chunks : List Chunk) : Option String :=
  let prompt := buildPrompt dateStr query relevant_chunks
  let message := anthropic_client.create "claude-sonnet-4-20250514" 500
    [{ role := "user", content := prompt }]
  (message.content.get? 0).map ContentBlock.text

/-- The per-turn block of the exported transcript:
`role = "Student" if msg["role"] == "user" else "Assistant"` followed by
`f"{role}:\n{msg['content']}\n\n"` and `"-"*50 + "\n\n"`. -/
def transcriptBlock (msg : Message) : String :=
  let role := if msg.role = "user" then "Student" else "Assistant"
  role ++ ":\n" ++ msg.content ++ "\n\n" ++ pyRepeat "-" 50 ++ "\n\n"

/-- Source `get_transcript()`: returns the sentinel on an empty transcript,
otherwise the title line, a `=`-separator, and one block per message in
order. -/
def get_transcript (messages : List Message) : String :=
  if messages = [] then "No conversation yet."
  else
    let transcript := "WCCCD Virtual Assistant - Chat Transcript\n" ++ pyRepeat "=" 50 ++ "\n\n"
    messages.foldl (fun transcript msg => transcript ++ transcriptBlock msg) transcript

/-- The Clear Conversation action: `st.session_state.messages = []`. -/
def clear (_messages : List Message) : List Message := []

/-- The fixed greeting injected into an empty transcript. -/
def welcome_message : String :=
  "Welcome to WCCCD!\n\nI am a chatbot here to help with your Academic Journey! Feel free to ask any questions related to WCCCD. You can try...\n\n- When does registration start?\n- How do I apply for admission?\n- How do I apply for financial aid?\n- How do I log into Blackboard?\n- How do I log into my WCCCD Email?\n\nJust a quick note—please don't share sensitive personal information like ID numbers, birthdates, or Social Security numbers to keep your data safe."

/-- The welcome-injection block of `main`: appends the greeting as an
assistant turn only when `len(st.session_state.messages) == 0`. -/
def ensure_welcome (messages : List Message) : List Message :=
  if messages.length = 0 then
    messages ++ [{ role := "assistant", content := welcome_message }]
  else messages

/-- The canned fallback used when retrieval finds nothing. -/
def fallback_response : String :=
  "I couldn't find any relevant information in the college website content. Please try rephrasing your question or contact WCCCD directly at (313) 496-2600 or visit wcccd.edu."

/-- The chat-input handler of `main`: appends the user turn, then either the
canned fallback (when the search result is empty) or the generated response.
The first component is the updated transcript (`none` models an uncaught
exception during search or generation); the second records the passages
argument of each `generate_response` invocation the handler performed. -/
def handle_query (anthropic_client : Anthropic) (dateStr : String)
    (messages : List Message) (query : String) (searchResult : Option (List Chunk)) :
    Option (List Message) × List (List Chunk) :=
  let messages := messages ++ [{ role := "user", content := query }]
  match searchResult with
  | none => (none, [])
  | some relevant_chunks =>
    if relevant_chunks = [] then
      (some (messages ++ [{ role := "assistant", content := fallback_response }]), [])
    else
      match generate_response anthropic_client dateStr query relevant_chunks with
      | none => (none, [relevant_chunks])
      | some response =>
        (some (messages ++ [{ role := "assistant", content := response }]), [relevant_chunks])

/-- Source `initialize_chatbot()`: `none` when `get_collection` raised
(missing collection) or the `ANTHROPIC_API_KEY` environment variable is
absent or empty (Python falsiness); otherwise the collection paired with an
`Anthropic` client built from the key.  The external `messages.create`
behaviour is supplied as `createImpl`. -/
def initialize_chatbot (get_collection : Option Collection) (anthropic_api_key : Option String)
    (createImpl : String → Nat → List Message → MessageResponse) :
    Option (Collection × Anthropic) :=
  match get_collection with
  | none => none
  | some collection =>
    match anthropic_api_key with
    | none => none
    | some key =>
      if key = "" then none
      else some (collection, { api_key := key, create := createImpl })

/-- The observable outcome of one pass through `main`. -/
structure MainResult where
  halted : Bool
  messages : Option (List Message)
  searchCount : Nat
  genCalls : List (List Chunk)
deriving DecidableEq

/-- One pass through `main` for one session: initialization (with `st.stop()`
on failure, before the welcome injection and before any input is read),
welcome injection, then the optional submitted query handled by
`search_knowledge_base` with `TOP_K_RESULTS` and `handle_query`.
`searchCount` counts knowledge-base searches and `genCalls` records the
passages argument of each generation call. -/
def main_step (get_collection : Option Collection) (anthropic_api_key : Option String)
    (createImpl : String → Nat → List Message → MessageResponse)
    (dateStr : String) (messages0 : List Message) (queryInput : Option String) : MainResult :=
  match initialize_chatbot get_collection anthropic_api_key createImpl with
  | none => { halted := true, messages := some messages0, searchCount := 0, genCalls := [] }
  | some (collection, anthropic_client) =>
    let messages := ensure_welcome messages0
    match queryInput with
    | none => { halted := false, messages := some messages, searchCount := 0, genCalls := [] }
    | some query =>
      let searchResult := search_knowledge_base collection query TOP_K_RESULTS
      let result := handle_query anthropic_client dateStr messages query searchResult
      { halted := false, messages := result.1, searchCount := 1, genCalls := result.2 }

/-- Concatenation of a list of strings, in order. -/
def joinAll : List String → String
  | [] => ""
  | s :: rest => s ++ joinAll rest

theorem foldl_append_eq (f : Message → String) :
    ∀ (l : List Message) (init : String),
      l.foldl (fun acc m => acc ++ f m) init = init ++ joinAll (l.map f) := by
  intro l
  induction l with
  | nil => intro init; simp [joinAll]
  | cons m ms ih => intro init; simp [joinAll, ih, String.append_assoc]

/-- Containment of `sub` in `t` as a substring. -/
def strContains (t sub : String) : Prop :=
  ∃ a b : String, t = a ++ sub ++ b

/-- Boolean list-prefix test, used to count pattern occurrences. -/
def isPrefixB : List Char → List Char → Bool
  | [], _ => true
  | _ :: _, [] => false
  | p :: ps, c :: cs => p == c && isPrefixB ps cs

/-- Number of positions of `text` at which `pat` occurs. -/
def countOccs (pat : List Char) : List Char → Nat
  | [] => 0
  | c :: rest => (if isPrefixB pat (c :: rest) then 1 else 0) + countOccs pat rest

/-- Number of occurrences of the two transcript labels in a text. -/
def labelCount (t : String) : Nat :=
  countOccs "Student:".data t.data + countOccs "Assistant:".data t.data

theorem strContains_mid (a s b : String) : strContains (a ++ s ++ b) s := ⟨a, b, rfl⟩

theorem strContains_trans {t m s : String} (h1 : strContains t m) (h2 : strContains m s) :
    strContains t s := by
  obtain ⟨a, b, rfl⟩ := h1
  obtain ⟨a', b', rfl⟩ := h2
  exact ⟨a ++ a', b' ++ b, by simp [String.append_assoc]⟩

theorem strContains_append_left {t s : String} (x : String) (h : strContains t s) :
    strContains (x ++ t) s := by
  obtain ⟨a, b, rfl⟩ := h
  exact ⟨x ++ a, b, by simp [String.append_assoc]⟩

theorem strContains_append_right {t s : String} (x : String) (h : strContains t s) :
    strContains (t ++ x) s := by
  obtain ⟨a, b, rfl⟩ := h
  exact ⟨a, b ++ x, by simp [String.append_assoc]⟩

/-- C1: for every submitted query, when the knowledge-base search returns an
empty passage sequence the handler appends exactly the canned fallback turn
(whose text contains the literal phone number "(313) 496-2600") and performs
no generation call; and every generation call the handler ever performs
receives a non-empty passages sequence. -/
theorem empty_search_gives_fallback_and_skips_generation
    (anthropic_client : Anthropic) (dateStr : String) (messages : List Message)
    (query : String) :
    (handle_query anthropic_client dateStr messages query (some []) =
      (some (messages ++ [{ role := "user", content := query },
        { role := "assistant", content := fallback_response }]), [])) ∧
    strContains fallback_response "(313) 496-2600" ∧
    (∀ searchResult : Option (List Chunk),
      ∀ call ∈ (handle_query anthropic_client dateStr messages query searchResult).2,
        call ≠ []) := by
  refine ⟨by simp [handle_query], ⟨"I couldn't find any relevant information in the college website content. Please try rephrasing your question or contact WCCCD directly at ", " or visit wcccd.edu.", rfl⟩, ?_⟩
  intro searchResult call hcall
  match searchResult with
  | none => simp [handle_query] at hcall
  | some relevant_chunks =>
    by_cases hempty : relevant_chunks = []
    · simp [handle_query, hempty] at hcall
    · simp only [handle_query, hempty, if_neg, if_false] at hcall
      rcases hgen : generate_response anthropic_client dateStr query relevant_chunks with _ | r <;>
        simp [hgen, hempty] at hcall <;> simp [hcall, hempty]

theorem strContains_joinSep {α : Type} (f : α → String) (sep : String) :
    ∀ (l : List α), ∀ c ∈ l, strContains (joinSep sep (l.map f)) (f c) := by
  intro l
  induction l with
  | nil => intro c hc; simp at hc
  | cons x xs ih =>
    intro c hc
    rcases List.mem_cons.mp hc with rfl | hc
    · cases xs with
      | nil => exact ⟨"", "", by simp [joinSep]⟩
      | cons y ys =>
        exact ⟨"", sep ++ joinSep sep ((y :: ys).map f),
          by simp [joinSep, String.append_assoc]⟩
    · cases xs with
      | nil => simp at hc
      | cons y ys =>
        have hx : joinSep sep ((x :: y :: ys).map f) =
            (f x ++ sep) ++ joinSep sep ((y :: ys).map f) := by
          simp [joinSep, String.append_assoc]
        rw [hx]
        exact strContains_append_left _ (ih c hc)

/-- C2: the prompt composed for a non-empty passage list contains the
current-date string, the user question, and every passage's title, URL and
content; the per-passage context entries appear in supply order, separated
by blank lines, inside the prompt. -/
theorem prompt_contains_date_question_and_passages
    (dateStr query : String) (relevant_chunks : List Chunk)
    (_hne : relevant_chunks ≠ []) :
    strContains (buildPrompt dateStr query relevant_chunks) dateStr ∧
    strContains (buildPrompt dateStr query relevant_chunks) query ∧
    (∀ chunk ∈ relevant_chunks,
      strContains (buildPrompt dateStr query relevant_chunks) chunk.title ∧
      strContains (buildPrompt dateStr query relevant_chunks) chunk.url ∧
      strContains (buildPrompt dateStr query relevant_chunks) chunk.content) ∧
    (∃ before after, buildPrompt dateStr query relevant_chunks =
      before ++ joinSep "\n\n" (relevant_chunks.map contextEntry) ++ after) ∧
    (∀ chunk : Chunk, contextEntry chunk =
      "Source: " ++ chunk.title ++ " (" ++ chunk.url ++ ")\n" ++ chunk.content) := by
  have hmid : strContains (buildPrompt dateStr query relevant_chunks)
      (promptContext relevant_chunks) :=
    ⟨promptPart1 ++ dateStr ++ promptPart2, promptPart3 ++ query ++ promptPart4,
      by simp [buildPrompt, String.append_assoc]⟩
  refine ⟨?_, ?_, ?_, ?_, fun _ => rfl⟩
  · exact ⟨promptPart1,
      promptPart2 ++ promptContext relevant_chunks ++ promptPart3 ++ query ++ promptPart4,
      by simp [buildPrompt, String.append_assoc]⟩
  · exact ⟨promptPart1 ++ dateStr ++ promptPart2 ++ promptContext relevant_chunks ++
      promptPart3, promptPart4, by simp [buildPrompt, String.append_assoc]⟩
  · intro chunk hchunk
    have hentry : strContains (buildPrompt dateStr query relevant_chunks)
        (contextEntry chunk) :=
      strContains_trans hmid (strContains_joinSep contextEntry "\n\n" relevant_chunks chunk hchunk)
    refine ⟨strContains_trans hentry ⟨"Source: ",
        " (" ++ chunk.url ++ ")\n" ++ chunk.content,
        by simp [contextEntry, String.append_assoc]⟩,
      strContains_trans hentry ⟨"Source: " ++ chunk.title ++ " (",
        ")\n" ++ chunk.content, by simp [contextEntry, String.append_assoc]⟩,
      strContains_trans hentry ⟨"Source: " ++ chunk.title ++ " (" ++ chunk.url ++ ")\n",
        "", by simp [contextEntry, String.append_assoc]⟩⟩
  · exact ⟨promptPart1 ++ dateStr ++ promptPart2, promptPart3 ++ query ++ promptPart4,
      by simp [buildPrompt, promptContext, String.append_assoc]⟩

/-- Concrete passage of the spec's worked scenario, used by the C2 witness. -/
def regChunk : Chunk :=
  { content := "Fall registration opens March 1.",
    url := "https://www.wcccd.edu/registration", title := "Registration" }

/-- Concrete prompt of the spec's worked scenario, used by the C2 witness. -/
def regPrompt : String :=
  buildPrompt "May 01, 2025" "When does registration start?" [regChunk]

/-- Witness for C2 at the spec's worked scenario: one registration passage
and the question "When does registration start?". -/
theorem prompt_contains_witness :
    strContains regPrompt "May 01, 2025" ∧
    strContains regPrompt "When does registration start?" ∧
    (∀ chunk ∈ [regChunk],
      strContains regPrompt chunk.title ∧
      strContains regPrompt chunk.url ∧
      strContains regPrompt chunk.content) ∧
    (∃ before after, regPrompt =
      before ++ joinSep "\n\n" ([regChunk].map contextEntry) ++ after) ∧
    (∀ chunk : Chunk, contextEntry chunk =
      "Source: " ++ chunk.title ++ " (" ++ chunk.url ++ ")\n" ++ chunk.content) :=
  prompt_contains_date_question_and_passages "May 01, 2025" "When does registration start?"
    [regChunk] (by simp)

/-- C3: clearing the transcript and then running the welcome injection
yields a transcript of length exactly one whose single turn is the assistant
greeting, and the welcome injection never changes a non-empty transcript. -/
theorem clear_then_welcome (messages : List Message) :
    (ensure_welcome (clear messages)).length = 1 ∧
    ensure_welcome (clear messages) = [{ role := "assistant", content := welcome_message }] ∧
    (∀ ms : List Message, ms ≠ [] → ensure_welcome ms = ms) := by
  refine ⟨by simp [ensure_welcome, clear], by simp [ensure_welcome, clear], ?_⟩
  intro ms hms
  simp [ensure_welcome, List.length_eq_zero, hms]

/-- C6: when the knowledge collection is missing or the API credential is
absent, `main` halts right after initialization: the transcript is untouched
and no knowledge-base search and no generation call happens in the session. -/
theorem config_error_halts_session
    (get_collection : Option Collection) (anthropic_api_key : Option String)
    (createImpl : String → Nat → List Message → MessageResponse)
    (dateStr : String) (messages0 : List Message) (queryInput : Option String)
    (h : get_collection = none ∨ anthropic_api_key = none) :
    main_step get_collection anthropic_api_key createImpl dateStr messages0 queryInput =
      { halted := true, messages := some messages0, searchCount := 0, genCalls := [] } := by
  rcases h with h | h <;> subst h
  · simp [main_step, initialize_chatbot]
  · cases get_collection <;> simp [main_step, initialize_chatbot]

/-- Witness for C6 at a concrete configuration: a missing collection halts
the session with an untouched transcript and zero external calls. -/
theorem config_error_halts_session_witness :
    main_step none (some "key") (fun _ _ _ => { content := [] }) "May 01, 2025"
        [{ role := "user", content := "hi" }] (some "q") =
      { halted := true, messages := some [{ role := "user", content := "hi" }],
        searchCount := 0, genCalls := [] } :=
  config_error_halts_session none (some "key") (fun _ _ _ => { content := [] })
    "May 01, 2025" [{ role := "user", content := "hi" }] (some "q") (Or.inl rfl)

/-- The document list the backing store reported for the query (the first
entry of `results['documents']`, when present). -/
def storeDocs (collection : Collection) (query : String) (k : Nat) : List String :=
  match (collection.query [query] k).documents with
  | some (docs0 :: _) => docs0
  | _ => []

/-- The metadata list the backing store reported for the query (the first
entry of `results['metadatas']`, when present). -/
def storeMetas (collection : Collection) (query : String) (k : Nat) : List Metadata :=
  match (collection.query [query] k).metadatas with
  | some (metas0 :: _) => metas0
  | _ => []

theorem buildChunks_enumFrom_spec (metas : List Metadata) :
    ∀ (docs : List String) (n : Nat) (chunks : List Chunk),
      buildChunks metas (List.enumFrom n docs) = some chunks →
      chunks.length = docs.length ∧
      ∀ i d, docs.get? i = some d →
        ∃ m, metas.get? (n + i) = some m ∧
          chunks.get? i = some { content := d, url := m.url, title := m.title } := by
  intro docs
  induction docs with
  | nil =>
    intro n chunks h
    simp only [List.enumFrom, buildChunks, Option.some.injEq] at h
    subst h
    exact ⟨rfl, by intro i d hd; simp at hd⟩
  | cons d ds ih =>
    intro n chunks h
    simp only [List.enumFrom, buildChunks] at h
    cases hm : metas.get? n with
    | none => rw [hm] at h; exact absurd h (by simp)
    | some m =>
      rw [hm] at h
      cases hb : buildChunks metas (List.enumFrom (n + 1) ds) with
      | none => rw [hb] at h; exact absurd h (by simp)
      | some cs =>
        rw [hb] at h
        simp only [Option.some.injEq] at h
        obtain ⟨hlen, hidx⟩ := ih (n + 1) cs hb
        subst h
        refine ⟨by simp [hlen], ?_⟩
        intro i dd hd
        cases i with
        | zero =>
          simp only [List.get?] at hd
          cases hd
          exact ⟨m, by simpa using hm, rfl⟩
        | succ j =>
          simp only [List.get?] at hd
          obtain ⟨m', hm', hc'⟩ := hidx j dd hd
          refine ⟨m', ?_, by simpa using hc'⟩
          have : n + (j + 1) = n + 1 + j := by omega
          rw [this]
          exact hm'

theorem buildChunks_total (metas : List Metadata) :
    ∀ (docs : List String) (n : Nat), n + docs.length ≤ metas.length →
      ∃ chunks, buildChunks metas (List.enumFrom n docs) = some chunks := by
  intro docs
  induction docs with
  | nil => intro n _; exact ⟨[], rfl⟩
  | cons d ds ih =>
    intro n h
    have hn : n < metas.length := by simp at h; omega
    obtain ⟨cs, hcs⟩ := ih (n + 1) (by simp at h ⊢; omega)
    refine ⟨Chunk.mk d (metas.get ⟨n, hn⟩).url (metas.get ⟨n, hn⟩).title :: cs, ?_⟩
    simp [List.enumFrom, buildChunks, hcs, List.getElem?_eq_getElem hn]

/-- C5: a successful search returns at most K passages whenever the backing
store honours the requested count, one passage per reported document, in the
store's order, each carrying the url and title the store provided at that
position. -/
theorem search_returns_at_most_k_in_store_order
    (collection : Collection) (query : String) (k : Nat) (chunks : List Chunk)
    (_hk : 1 ≤ k)
    (hs : search_knowledge_base collection query k = some chunks)
    (hlen : (storeDocs collection query k).length ≤ k) :
    chunks.length ≤ k ∧
    chunks.length = (storeDocs collection query k).length ∧
    ∀ i d, (storeDocs collection query k).get? i = some d →
      ∃ m, (storeMetas collection query k).get? i = some m ∧
        chunks.get? i = some { content := d, url := m.url, title := m.title } := by
  unfold search_knowledge_base at hs
  unfold storeDocs at hlen ⊢
  unfold storeMetas
  cases hdoc : (collection.query [query] k).documents with
  | none =>
    rw [hdoc] at hs hlen
    have hs2 : some ([] : List Chunk) = some chunks := hs
    obtain rfl : ([] : List Chunk) = chunks := by injection hs2
    refine ⟨by simp, rfl, ?_⟩
    intro i d hd
    have hd2 : ([] : List String).get? i = some d := hd
    simp at hd2
  | some docsList =>
    cases docsList with
    | nil =>
      rw [hdoc] at hs hlen
      have hs2 : some ([] : List Chunk) = some chunks := hs
      obtain rfl : ([] : List Chunk) = chunks := by injection hs2
      refine ⟨by simp, rfl, ?_⟩
      intro i d hd
      have hd2 : ([] : List String).get? i = some d := hd
      simp at hd2
    | cons docs0 dtail =>
      rw [hdoc] at hs hlen
      have hs2 : (if docs0 = [] then some []
          else match (collection.query [query] k).metadatas with
            | none => none
            | some [] => none
            | some (metas0 :: _) => buildChunks metas0 docs0.enum) = some chunks := hs
      have hlen2 : docs0.length ≤ k := hlen
      by_cases hd0 : docs0 = []
      · rw [if_pos hd0] at hs2
        obtain rfl : ([] : List Chunk) = chunks := by injection hs2
        subst hd0
        refine ⟨by simp, rfl, ?_⟩
        intro i d hd
        have hd2 : ([] : List String).get? i = some d := hd
        simp at hd2
      · rw [if_neg hd0] at hs2
        cases hmeta : (collection.query [query] k).metadatas with
        | none => rw [hmeta] at hs2; exact absurd hs2 (by simp)
        | some metasList =>
          cases metasList with
          | nil => rw [hmeta] at hs2; exact absurd hs2 (by simp)
          | cons metas0 mtail =>
            rw [hmeta] at hs2
            have hs3 : buildChunks metas0 (List.enumFrom 0 docs0) = some chunks := hs2
            obtain ⟨hl, hidx⟩ := buildChunks_enumFrom_spec metas0 docs0 0 chunks hs3
            refine ⟨by omega, hl, ?_⟩
            intro i d hd
            obtain ⟨m, hm, hc⟩ := hidx i d hd
            exact ⟨m, by simpa using hm, hc⟩

/-- Concrete store with one document, used by the C5 witness. -/
def oneDocCollection : Collection :=
  { query := fun _ _ =>
      { documents := some [["Fall registration opens March 1."]],
        metadatas :=
          some [[{ url := "https://www.wcccd.edu/registration", title := "Registration" }]] } }

/-- Concrete chunk the C5 witness expects the search to return. -/
def oneDocChunk : Chunk :=
  { content := "Fall registration opens March 1.",
    url := "https://www.wcccd.edu/registration", title := "Registration" }

/-- Witness for C5 at a concrete store reporting one document for K = 20. -/
theorem search_returns_at_most_k_witness :
    ([oneDocChunk] : List Chunk).length ≤ 20 ∧
    ([oneDocChunk] : List Chunk).length =
      (storeDocs oneDocCollection "When does registration start?" 20).length ∧
    ∀ i d, (storeDocs oneDocCollection "When does registration start?" 20).get? i = some d →
      ∃ m, (storeMetas oneDocCollection "When does registration start?" 20).get? i = some m ∧
        ([oneDocChunk] : List Chunk).get? i =
          some { content := d, url := m.url, title := m.title } :=
  search_returns_at_most_k_in_store_order oneDocCollection "When does registration start?" 20
    [oneDocChunk] (by decide) rfl (by decide)

/-- C8: when the store reports an absent or empty document list the search
returns the empty chunk list without raising, and metadata indexing is
performed only at indices at which a document exists: whenever the reported
metadata list covers every document index, the search cannot raise. -/
theorem search_handles_empty_documents :
    (∀ (collection : Collection) (query : String) (k : Nat),
      ((collection.query [query] k).documents = none ∨
       (collection.query [query] k).documents = some [] ∨
       (∃ rest, (collection.query [query] k).documents = some ([] :: rest))) →
      search_knowledge_base collection query k = some []) ∧
    (∀ (collection : Collection) (query : String) (k : Nat),
      (storeDocs collection query k).length ≤ (storeMetas collection query k).length →
      search_knowledge_base collection query k ≠ none) := by
  constructor
  · intro collection query k h
    unfold search_knowledge_base
    rcases h with h | h | ⟨rest, h⟩ <;> simp [h]
  · intro collection query k h
    unfold search_knowledge_base
    unfold storeDocs storeMetas at h
    cases hdoc : (collection.query [query] k).documents with
    | none => simp
    | some docsList =>
      cases docsList with
      | nil => simp
      | cons docs0 dtail =>
        rw [hdoc] at h
        have h2 : docs0.length ≤
            (match (collection.query [query] k).metadatas with
              | some (metas0 :: _) => metas0
              | _ => []).length := h
        by_cases hd0 : docs0 = []
        · show (if docs0 = [] then some []
              else match (collection.query [query] k).metadatas with
                | none => none
                | some [] => none
                | some (metas0 :: _) => buildChunks metas0 docs0.enum) ≠ none
          rw [if_pos hd0]
          simp
        · show (if docs0 = [] then some []
              else match (collection.query [query] k).metadatas with
                | none => none
                | some [] => none
                | some (metas0 :: _) => buildChunks metas0 docs0.enum) ≠ none
          rw [if_neg hd0]
          cases hmeta : (collection.query [query] k).metadatas with
          | none =>
            rw [hmeta] at h2
            have h3 : docs0.length ≤ ([] : List Metadata).length := h2
            exact absurd (List.length_eq_zero.mp (by simpa using h3)) hd0
          | some metasList =>
            cases metasList with
            | nil =>
              rw [hmeta] at h2
              have h3 : docs0.length ≤ ([] : List Metadata).length := h2
              exact absurd (List.length_eq_zero.mp (by simpa using h3)) hd0
            | cons metas0 mtail =>
              rw [hmeta] at h2
              have h3 : docs0.length ≤ metas0.length := h2
              obtain ⟨chunks, hchunks⟩ := buildChunks_total metas0 docs0 0 (by omega)
              show buildChunks metas0 (List.enumFrom 0 docs0) ≠ none
              rw [hchunks]
              simp

/-- C9: whenever the submit handler completes, the new transcript is the old
one with exactly two turns appended: the user turn carrying the query, then
one assistant turn, which is the canned fallback or a generated response. -/
theorem submit_appends_exactly_two_turns
    (anthropic_client : Anthropic) (dateStr : String) (messages : List Message)
    (query : String) (searchResult : Option (List Chunk)) (out : List Message)
    (h : (handle_query anthropic_client dateStr messages query searchResult).1 = some out) :
    ∃ response,
      out = messages ++ [{ role := "user", content := query },
        { role := "assistant", content := response }] ∧
      (response = fallback_response ∨
        ∃ chunks, searchResult = some chunks ∧ chunks ≠ [] ∧
          generate_response anthropic_client dateStr query chunks = some response) := by
  match searchResult with
  | none => simp [handle_query] at h
  | some relevant_chunks =>
    by_cases hempty : relevant_chunks = []
    · refine ⟨fallback_response, ?_, Or.inl rfl⟩
      simp [handle_query, hempty] at h
      simp [← h]
    · rcases hgen : generate_response anthropic_client dateStr query relevant_chunks with _ | r
      · simp [handle_query, hempty, hgen] at h
      · refine ⟨r, ?_, Or.inr ⟨relevant_chunks, rfl, hempty, hgen⟩⟩
        simp [handle_query, hempty, hgen] at h
        simp [← h]

/-- Witness for C9 at a concrete input: submitting "q" on an empty search
result appends the user turn and the fallback assistant turn. -/
theorem submit_appends_exactly_two_turns_witness :
    ∃ response,
      [({ role := "user", content := "q" } : Message),
        { role := "assistant", content := fallback_response }] =
        ([] : List Message) ++ [{ role := "user", content := "q" },
          { role := "assistant", content := response }] ∧
      (response = fallback_response ∨
        ∃ chunks, (some ([] : List Chunk)) = some chunks ∧ chunks ≠ [] ∧
          generate_response { api_key := "k", create := fun _ _ _ => { content := [] } }
            "May 01, 2025" "q" chunks = some response) := by
  have := submit_appends_exactly_two_turns
    { api_key := "k", create := fun _ _ _ => { content := [] } }
    "May 01, 2025" [] "q" (some [])
    [{ role := "user", content := "q" }, { role := "assistant", content := fallback_response }]
    (by simp [handle_query])
  exact this

/-- C7: on a non-empty transcript the export is a title line, a separator
line of 50 repeated equals signs, a blank line, then one block per turn in
chronological order; each block is the role label, the turn content, a blank
line, and a separator line of 50 repeated dashes followed by a blank line. -/
theorem transcript_export_format (messages : List Message) (hne : messages ≠ []) :
    get_transcript messages =
      "WCCCD Virtual Assistant - Chat Transcript\n" ++ String.mk (List.replicate 50 '=') ++
        "\n\n" ++ joinAll (messages.map transcriptBlock) ∧
    ∀ m : Message, transcriptBlock m =
      (if m.role = "user" then "Student" else "Assistant") ++ ":\n" ++ m.content ++
        "\n\n" ++ String.mk (List.replicate 50 '-') ++ "\n\n" := by
  have heq : pyRepeat "=" 50 = String.mk (List.replicate 50 '=') := by decide
  have hdash : pyRepeat "-" 50 = String.mk (List.replicate 50 '-') := by decide
  constructor
  · have hfold : get_transcript messages =
        ("WCCCD Virtual Assistant - Chat Transcript\n" ++ pyRepeat "=" 50 ++ "\n\n") ++
          joinAll (messages.map transcriptBlock) := by
      unfold get_transcript
      rw [if_neg hne]
      exact foldl_append_eq transcriptBlock messages _
    rw [hfold, heq]
  · intro m
    rw [transcriptBlock, hdash]

/-- Witness for C7 at a one-turn transcript. -/
theorem transcript_export_format_witness :
    get_transcript [{ role := "user", content := "hi" }] =
      "WCCCD Virtual Assistant - Chat Transcript\n" ++ String.mk (List.replicate 50 '=') ++
        "\n\n" ++ joinAll ([({ role := "user", content := "hi" } : Message)].map transcriptBlock) ∧
    ∀ m : Message, transcriptBlock m =
      (if m.role = "user" then "Student" else "Assistant") ++ ":\n" ++ m.content ++
        "\n\n" ++ String.mk (List.replicate 50 '-') ++ "\n\n" :=
  transcript_export_format [{ role := "user", content := "hi" }] (by simp)

/-- C10: a turn's block in the export starts with the label "Student:" if
and only if its role is exactly "user"; a turn with any other role value
gets the label "Assistant:". -/
theorem transcript_label_iff_user_role (role content : String) :
    ((∃ rest, transcriptBlock { role := role, content := content } = "Student:" ++ rest) ↔
      role = "user") ∧
    (role ≠ "user" →
      ∃ rest, transcriptBlock { role := role, content := content } = "Assistant:" ++ rest) := by
  constructor
  · constructor
    · rintro ⟨rest, hr⟩
      by_contra hne
      have hblock : transcriptBlock { role := role, content := content } =
          "Assistant:\n" ++ (content ++ ("\n\n" ++ (pyRepeat "-" 50 ++ "\n\n"))) := by
        simp [transcriptBlock, hne, String.append_assoc]
      rw [hblock] at hr
      have h2 := congrArg String.data hr
      simp [String.data_append] at h2
    · intro hu
      refine ⟨"\n" ++ content ++ "\n\n" ++ pyRepeat "-" 50 ++ "\n\n", ?_⟩
      apply String.ext
      simp [transcriptBlock, hu, String.data_append]
  · intro hne
    refine ⟨"\n" ++ content ++ "\n\n" ++ pyRepeat "-" 50 ++ "\n\n", ?_⟩
    apply String.ext
    simp [transcriptBlock, hne, String.data_append]

theorem isPrefixB_append_nl :
    ∀ (pat : List Char), '\n' ∉ pat → ∀ (a b : List Char),
      isPrefixB pat (a ++ '\n' :: b) = isPrefixB pat a := by
  intro pat
  induction pat with
  | nil => intro _ a b; simp [isPrefixB]
  | cons p ps ih =>
    intro hnl a b
    have hp : p ≠ '\n' := fun h => hnl (by simp [h])
    have hps : '\n' ∉ ps := fun h => hnl (by simp [h])
    cases a with
    | nil =>
      simp [isPrefixB, Ne.symm hp]
      intro h
      exact absurd h hp
    | cons x a2 => simp [isPrefixB, ih hps a2 b]

theorem countOccs_append_nl (pat : List Char) (hnl : '\n' ∉ pat) :
    ∀ (a b : List Char),
      countOccs pat (a ++ '\n' :: b) = countOccs pat a + countOccs pat ('\n' :: b) := by
  intro a b
  induction a with
  | nil => simp [countOccs]
  | cons x a2 ih =>
    have hx : isPrefixB pat ((x :: a2) ++ '\n' :: b) = isPrefixB pat (x :: a2) :=
      isPrefixB_append_nl pat hnl (x :: a2) b
    simp only [List.cons_append] at hx ⊢
    simp [countOccs, ih, hx]
    omega

theorem countOccs_nl_cons (pat : List Char) (hnl : '\n' ∉ pat) (hne : pat ≠ [])
    (l : List Char) : countOccs pat ('\n' :: l) = countOccs pat l := by
  cases pat with
  | nil => simp at hne
  | cons p ps =>
    have hp : p ≠ '\n' := fun h => hnl (by simp [h])
    simp [countOccs, isPrefixB, hp]

theorem isPrefixB_iff : ∀ (pat l : List Char), isPrefixB pat l = true ↔ ∃ t, l = pat ++ t := by
  intro pat
  induction pat with
  | nil => intro l; simp [isPrefixB]
  | cons p ps ih =>
    intro l
    cases l with
    | nil => simp [isPrefixB]
    | cons c cs =>
      simp only [isPrefixB, Bool.and_eq_true, beq_iff_eq, ih cs, List.cons_append,
        List.cons.injEq]
      constructor
      · rintro ⟨rfl, t, rfl⟩; exact ⟨t, rfl, rfl⟩
      · rintro ⟨t, rfl, rfl⟩; exact ⟨rfl, t, rfl⟩

theorem countOccs_ne_zero : ∀ (l pat : List Char), countOccs pat l ≠ 0 →
    ∃ a b, l = a ++ pat ++ b := by
  intro l
  induction l with
  | nil => intro pat h; simp [countOccs] at h
  | cons c cs ih =>
    intro pat h
    by_cases hp : isPrefixB pat (c :: cs) = true
    · obtain ⟨t, ht⟩ := (isPrefixB_iff pat (c :: cs)).mp hp
      exact ⟨[], t, by simp [ht]⟩
    · have h2 : countOccs pat cs ≠ 0 := by
        simp [countOccs, hp] at h
        simpa using h
      obtain ⟨a, b, hab⟩ := ih pat h2
      exact ⟨c :: a, b, by simp [hab]⟩

theorem countOccs_of_decomp : ∀ (a pat b : List Char), pat ≠ [] →
    countOccs pat (a ++ pat ++ b) ≠ 0 := by
  intro a
  induction a with
  | nil =>
    intro pat b hne
    cases pat with
    | nil => simp at hne
    | cons p ps =>
      have hpre : isPrefixB (p :: ps) ((p :: ps) ++ b) = true :=
        (isPrefixB_iff _ _).mpr ⟨b, rfl⟩
      simp only [List.nil_append]
      simp only [List.cons_append] at hpre ⊢
      simp [countOccs, hpre]
  | cons c cs ih =>
    intro pat b hne
    have h2 := ih pat b hne
    simp only [List.append_assoc] at h2
    simp only [List.cons_append, List.append_assoc]
    simp [countOccs]
    omega

theorem strContains_countOccs_ne_zero {t s : String} (h : strContains t s)
    (hne : s.data ≠ []) : countOccs s.data t.data ≠ 0 := by
  obtain ⟨a, b, rfl⟩ := h
  have hd : ((a ++ s) ++ b).data = a.data ++ s.data ++ b.data := by
    simp [String.data_append]
  rw [hd]
  exact countOccs_of_decomp a.data s.data b.data hne

theorem countOccs_eq_zero_of_not_strContains {t s : String} (h : ¬ strContains t s) :
    countOccs s.data t.data = 0 := by
  by_contra hc
  obtain ⟨a, b, hab⟩ := countOccs_ne_zero t.data s.data hc
  exact h ⟨⟨a⟩, ⟨b⟩, String.ext (by simp [String.data_append, hab])⟩

theorem countOccs_block (pat : List Char) (hnl : '\n' ∉ pat) (hne : pat ≠ [])
    (hdash : countOccs pat (pyRepeat "-" 50).data = 0)
    (m : Message) (rest : List Char) :
    countOccs pat ((transcriptBlock m).data ++ rest) =
      countOccs pat (if m.role = "user" then "Student:".data else "Assistant:".data) +
        (countOccs pat m.content.data + countOccs pat rest) := by
  have hsplit : (transcriptBlock m).data ++ rest =
      (if m.role = "user" then "Student:".data else "Assistant:".data) ++
        ('\n' :: (m.content.data ++ '\n' :: '\n' ::
          ((pyRepeat "-" 50).data ++ '\n' :: '\n' :: rest))) := by
    by_cases h : m.role = "user" <;> simp [transcriptBlock, h, String.data_append]
  rw [hsplit, countOccs_append_nl pat hnl, countOccs_nl_cons pat hnl hne,
    countOccs_append_nl pat hnl, countOccs_nl_cons pat hnl hne,
    countOccs_nl_cons pat hnl hne, countOccs_append_nl pat hnl,
    countOccs_nl_cons pat hnl hne, countOccs_nl_cons pat hnl hne, hdash]
  omega

theorem countOccs_joinAll (pat : List Char) (hnl : '\n' ∉ pat) (hne : pat ≠ [])
    (hdash : countOccs pat (pyRepeat "-" 50).data = 0) :
    ∀ messages : List Message,
      (∀ m ∈ messages, countOccs pat m.content.data = 0) →
      countOccs pat (joinAll (messages.map transcriptBlock)).data =
        ((messages.map (fun m =>
          countOccs pat (if m.role = "user" then "Student:".data
            else "Assistant:".data))).sum) := by
  intro messages
  induction messages with
  | nil => intro _; simp [joinAll, countOccs]
  | cons m ms ih =>
    intro hc
    have hdata : (joinAll ((m :: ms).map transcriptBlock)).data =
        (transcriptBlock m).data ++ (joinAll (ms.map transcriptBlock)).data := by
      simp [joinAll, String.data_append]
    rw [hdata, countOccs_block pat hnl hne hdash m _, hc m (by simp),
      ih (fun x hx => hc x (by simp [hx]))]
    simp

set_option maxRecDepth 4096

/-- Counterexample to C4 as stated: a turn whose content itself contains
the text "Assistant:" makes the exported text hold two label occurrences
for one turn. -/
theorem label_count_mismatch_example :
    labelCount (get_transcript [{ role := "user", content := "Assistant:" }]) ≠
      ([{ role := "user", content := "Assistant:" }] : List Message).length := by
  decide

theorem labels_sum (p q : List Char)
    (hone : ∀ x : Message,
      countOccs p (if x.role = "user" then p else q) +
        countOccs q (if x.role = "user" then p else q) = 1) :
    ∀ ms : List Message,
      ((ms.map (fun m => countOccs p (if m.role = "user" then p else q))).sum +
       (ms.map (fun m => countOccs q (if m.role = "user" then p else q))).sum) =
        ms.length := by
  intro ms
  induction ms with
  | nil => simp
  | cons x xs ih =>
    simp only [List.map_cons, List.sum_cons, List.length_cons]
    have hx := hone x
    omega

/-- C4 (amended): the export of an empty transcript is exactly
"No conversation yet."; on a non-empty transcript whose turn contents do not
themselves contain "Student:" or "Assistant:" as substrings, the number of
occurrences of the two labels in the exported text equals the number of
turns. -/
theorem transcript_label_count (messages : List Message)
    (hclean : ∀ m ∈ messages, ¬ strContains m.content "Student:" ∧
      ¬ strContains m.content "Assistant:") :
    (messages = [] → get_transcript messages = "No conversation yet.") ∧
    (messages ≠ [] → labelCount (get_transcript messages) = messages.length) := by
  constructor
  · intro h; subst h; rfl
  · intro hne
    have hSnl : '\n' ∉ "Student:".data := by decide
    have hAnl : '\n' ∉ "Assistant:".data := by decide
    have hSne : "Student:".data ≠ [] := by decide
    have hAne : "Assistant:".data ≠ [] := by decide
    have hSdash : countOccs "Student:".data (pyRepeat "-" 50).data = 0 := by decide
    have hAdash : countOccs "Assistant:".data (pyRepeat "-" 50).data = 0 := by decide
    have hShead : countOccs "Student:".data
        ("WCCCD Virtual Assistant - Chat Transcript\n" ++ pyRepeat "=" 50).data = 0 := by decide
    have hAhead : countOccs "Assistant:".data
        ("WCCCD Virtual Assistant - Chat Transcript\n" ++ pyRepeat "=" 50).data = 0 := by decide
    have hfold : get_transcript messages =
        ("WCCCD Virtual Assistant - Chat Transcript\n" ++ pyRepeat "=" 50 ++ "\n\n") ++
          joinAll (messages.map transcriptBlock) := by
      unfold get_transcript
      rw [if_neg hne]
      exact foldl_append_eq transcriptBlock messages _
    have hdata : (get_transcript messages).data =
        ("WCCCD Virtual Assistant - Chat Transcript\n" ++ pyRepeat "=" 50).data ++
          '\n' :: '\n' :: (joinAll (messages.map transcriptBlock)).data := by
      rw [hfold]
      simp [String.data_append]
    have hcS : ∀ m ∈ messages, countOccs "Student:".data m.content.data = 0 :=
      fun m hm => countOccs_eq_zero_of_not_strContains (hclean m hm).1
    have hcA : ∀ m ∈ messages, countOccs "Assistant:".data m.content.data = 0 :=
      fun m hm => countOccs_eq_zero_of_not_strContains (hclean m hm).2
    have hS : countOccs "Student:".data (get_transcript messages).data =
        ((messages.map (fun m => countOccs "Student:".data
          (if m.role = "user" then "Student:".data else "Assistant:".data))).sum) := by
      rw [hdata, countOccs_append_nl _ hSnl, countOccs_nl_cons _ hSnl hSne,
        countOccs_nl_cons _ hSnl hSne, hShead,
        countOccs_joinAll _ hSnl hSne hSdash messages hcS]
      omega
    have hA : countOccs "Assistant:".data (get_transcript messages).data =
        ((messages.map (fun m => countOccs "Assistant:".data
          (if m.role = "user" then "Student:".data else "Assistant:".data))).sum) := by
      rw [hdata, countOccs_append_nl _ hAnl, countOccs_nl_cons _ hAnl hAne,
        countOccs_nl_cons _ hAnl hAne, hAhead,
        countOccs_joinAll _ hAnl hAne hAdash messages hcA]
      omega
    have hone : ∀ x : Message,
        countOccs "Student:".data
            (if x.role = "user" then "Student:".data else "Assistant:".data) +
          countOccs "Assistant:".data
            (if x.role = "user" then "Student:".data else "Assistant:".data) = 1 := by
      intro x
      by_cases hx : x.role = "user"
      · rw [if_pos hx]; decide
      · rw [if_neg hx]; decide
    unfold labelCount
    rw [hS, hA]
    exact labels_sum "Student:".data "Assistant:".data hone messages


/-- Witness for C4 at a one-turn transcript with label-free content. -/
theorem transcript_label_count_witness :
    (([({ role := "user", content := "hi" } : Message)] : List Message) = [] →
      get_transcript [{ role := "user", content := "hi" }] = "No conversation yet.") ∧
    (([({ role := "user", content := "hi" } : Message)] : List Message) ≠ [] →
      labelCount (get_transcript [{ role := "user", content := "hi" }]) =
        ([({ role := "user", content := "hi" } : Message)] : List Message).length) :=
  transcript_label_count [{ role := "user", content := "hi" }] (by
    intro m hm
    simp only [List.mem_singleton] at hm
    subst hm
    exact ⟨fun h => strContains_countOccs_ne_zero h (by decide) (by decide),
           fun h => strContains_countOccs_ne_zero h (by decide) (by decide)⟩)

end WcccdChatbot
